import Mathlib

/-!
Shallow embedding of the DIA audit-trail datastore, pkg/model/dbAudit.go.

The stateful Go code is embedded as pure Lean functions over an explicit
state.  The influx time-series store is a list of written points, the redis
cache is an association list, and the in-process batch buffer together with
its point counter lives in the DBAudit structure.  External services answer
nondeterministically, so each operation that talks to influx takes the
outcome of that interaction as an extra argument (an Option Nat: none for a
successful interaction, some code for a failure carrying an opaque error
code).  Clock reads (time.Now) are likewise passed in as Int arguments
holding nanoseconds since the Unix epoch.  Machine int64 values are modelled
as unbounded Int; none of the embedded quantities overflow in the modelled
scenarios.
-/

/-- Go error values as they occur in dbAudit.go: either an opaque error
produced by the influx or redis client (a network or engine failure,
carried as an abstract numeric code) or an error built from a message
string (errors.New, strconv failures, malformed queries). -/
inductive GoError where
  | influxErr (code : Nat)
  | msg (s : String)
  deriving DecidableEq

/-- Decimal digit character, as produced by strconv: digitChar d is the
character for digit d (only used with d < 10). -/
def digitChar (d : Nat) : Char := Char.ofNat (48 + d)

/-- Inverse of digitChar on the digit characters: classifies a character
as a decimal digit, as strconv parsing does. -/
def charDigit? (c : Char) : Option Nat :=
  if 48 ≤ c.toNat ∧ c.toNat ≤ 57 then some (c.toNat - 48) else none

/-- Fuel-indexed accumulator loop producing the decimal digits of n in
front of acc, least significant digit innermost.  The fuel only serves
structural termination; formatNat always supplies enough. -/
def formatNatAux : Nat → Nat → List Char → List Char
  | 0, _, acc => acc
  | fuel + 1, n, acc =>
    if n = 0 then acc else formatNatAux fuel (n / 10) (digitChar (n % 10) :: acc)

/-- Decimal rendering of a natural number, as strconv.FormatInt renders
nonnegative int64 values in base 10. -/
def formatNat (n : Nat) : String :=
  if n = 0 then "0" else ⟨formatNatAux (n + 1) n []⟩

/-- Models strconv.FormatInt(i, 10) (and strconv.Itoa): decimal digits,
with a leading minus sign for negative values. -/
def formatInt (i : Int) : String :=
  if i < 0 then "-" ++ formatNat (-i).toNat else formatNat i.toNat

/-- Accumulator loop of decimal parsing: consumes digit characters,
failing on any non-digit, as the digit loop of strconv.ParseInt does. -/
def parseNatDigits : List Char → Nat → Option Nat
  | [], acc => some acc
  | c :: cs, acc =>
    match charDigit? c with
    | some d => parseNatDigits cs (acc * 10 + d)
    | none => none

/-- Character-list form of decimal integer parsing: optional sign followed
by at least one digit. -/
def parseIntChars : List Char → Option Int
  | [] => none
  | c :: cs =>
    if c = '-' then
      if cs.isEmpty then none
      else (parseNatDigits cs 0).map (fun n : Nat => -(n : Int))
    else if c = '+' then
      if cs.isEmpty then none
      else (parseNatDigits cs 0).map (fun n : Nat => (n : Int))
    else
      (parseNatDigits (c :: cs) 0).map (fun n : Nat => (n : Int))

/-- Models strconv.ParseInt(s, 10, 64): a decimal integer with optional
sign, none on any malformed input.  The int64 range check is dropped: all
values parsed by the embedded code were produced from int64 values. -/
def parseIntBase10 (s : String) : Option Int :=
  parseIntChars s.data

theorem formatNatAux_zero (fuel : Nat) (acc : List Char) :
    formatNatAux fuel 0 acc = acc := by
  cases fuel <;> simp [formatNatAux]

theorem formatNatAux_append (fuel : Nat) :
    ∀ (n : Nat) (acc : List Char),
      formatNatAux fuel n acc = formatNatAux fuel n [] ++ acc := by
  induction fuel with
  | zero => intro n acc; simp [formatNatAux]
  | succ fuel ih =>
    intro n acc
    by_cases hn : n = 0
    · simp [formatNatAux, hn]
    · rw [formatNatAux, formatNatAux, if_neg hn, if_neg hn,
        ih (n / 10) (digitChar (n % 10) :: acc), ih (n / 10) [digitChar (n % 10)]]
      simp

theorem charDigit?_digitChar (d : Nat) (hd : d < 10) :
    charDigit? (digitChar d) = some d := by
  interval_cases d <;> decide

theorem digitChar_ne_minus (d : Nat) (hd : d < 10) : digitChar d ≠ '-' := by
  interval_cases d <;> decide

theorem digitChar_ne_plus (d : Nat) (hd : d < 10) : digitChar d ≠ '+' := by
  interval_cases d <;> decide

theorem parseNatDigits_append (l1 l2 : List Char) :
    ∀ k, parseNatDigits (l1 ++ l2) k =
      (parseNatDigits l1 k).bind (parseNatDigits l2) := by
  induction l1 with
  | nil => intro k; simp [parseNatDigits]
  | cons c cs ih =>
    intro k
    rw [List.cons_append, parseNatDigits, parseNatDigits]
    cases charDigit? c with
    | some d => exact ih (k * 10 + d)
    | none => rfl

theorem parseNatDigits_formatNatAux (fuel : Nat) :
    ∀ (n k : Nat), n ≤ fuel →
      parseNatDigits (formatNatAux fuel n []) k =
        some (k * 10 ^ (formatNatAux fuel n []).length + n) := by
  induction fuel with
  | zero =>
    intro n k hn
    have : n = 0 := Nat.le_zero.mp hn
    subst this
    simp [formatNatAux, parseNatDigits]
  | succ fuel ih =>
    intro n k hn
    by_cases h0 : n = 0
    · subst h0; simp [formatNatAux, parseNatDigits]
    · have hlt : n / 10 < n := Nat.div_lt_self (Nat.pos_of_ne_zero h0) (by norm_num)
      have hfuel : n / 10 ≤ fuel := by omega
      rw [show formatNatAux (fuel + 1) n [] =
            formatNatAux fuel (n / 10) [digitChar (n % 10)] from by
          rw [formatNatAux, if_neg h0]]
      rw [formatNatAux_append fuel (n / 10) [digitChar (n % 10)]]
      rw [parseNatDigits_append]
      rw [ih (n / 10) k hfuel]
      have hmod : n % 10 < 10 := Nat.mod_lt _ (by norm_num)
      rw [Option.bind]
      rw [show parseNatDigits [digitChar (n % 10)]
            (k * 10 ^ (formatNatAux fuel (n / 10) []).length + n / 10) =
          some ((k * 10 ^ (formatNatAux fuel (n / 10) []).length + n / 10) * 10
            + n % 10) from by
        simp [parseNatDigits, charDigit?_digitChar (n % 10) hmod]]
      congr 1
      rw [List.length_append, List.length_singleton, pow_succ]
      have hdm := Nat.div_add_mod n 10
      ring_nf
      omega

theorem formatNatAux_head (fuel : Nat) :
    ∀ n : Nat, 0 < n → n ≤ fuel →
      ∃ d rest, d < 10 ∧ formatNatAux fuel n [] = digitChar d :: rest := by
  induction fuel with
  | zero => intro n hpos hle; omega
  | succ fuel ih =>
    intro n hpos hle
    have h0 : n ≠ 0 := Nat.pos_iff_ne_zero.mp hpos
    rw [formatNatAux, if_neg h0]
    by_cases hq : n / 10 = 0
    · rw [hq, formatNatAux_zero]
      exact ⟨n % 10, [], Nat.mod_lt _ (by norm_num), rfl⟩
    · have hlt : n / 10 < n := Nat.div_lt_self hpos (by norm_num)
      obtain ⟨d, rest, hd, heq⟩ :=
        ih (n / 10) (Nat.pos_of_ne_zero hq) (by omega)
      refine ⟨d, rest ++ [digitChar (n % 10)], hd, ?_⟩
      rw [formatNatAux_append fuel (n / 10) [digitChar (n % 10)], heq]
      simp

theorem parseNatDigits_formatNat (n : Nat) :
    parseNatDigits (formatNat n).data 0 = some n := by
  by_cases h0 : n = 0
  · subst h0; decide
  · rw [formatNat, if_neg h0]
    have := parseNatDigits_formatNatAux (n + 1) n 0 (Nat.le_succ n)
    simpa using this

theorem formatNat_data (n : Nat) (h0 : n ≠ 0) :
    (formatNat n).data = formatNatAux (n + 1) n [] := by
  rw [formatNat, if_neg h0]

theorem string_data_append (a b : String) : (a ++ b).data = a.data ++ b.data := by
  cases a; cases b; rfl

/-- Parsing inverts formatting: the decimal rendering of any integer
parses back to that integer.  This is the strconv round trip the reverse
pool index relies on. -/
theorem parseIntBase10_formatInt (i : Int) : parseIntBase10 (formatInt i) = some i := by
  by_cases hi : i < 0
  · have hm : 0 < (-i).toNat := by omega
    have hm0 : (-i).toNat ≠ 0 := Nat.pos_iff_ne_zero.mp hm
    rw [parseIntBase10, formatInt, if_pos hi, string_data_append]
    obtain ⟨d, rest, hd, heq⟩ :=
      formatNatAux_head ((-i).toNat + 1) (-i).toNat hm (Nat.le_succ _)
    have hdata : ("-" : String).data = ['-'] := rfl
    rw [hdata]
    have hne : (formatNat (-i).toNat).data ≠ [] := by
      rw [formatNat_data _ hm0, heq]; simp
    rw [List.singleton_append, parseIntChars, if_pos rfl,
      if_neg (by simpa [List.isEmpty_iff] using hne)]
    rw [parseNatDigits_formatNat]
    simp only [Option.map_some']
    congr 1
    omega
  · have hnn : 0 ≤ i := by omega
    by_cases h0 : i.toNat = 0
    · have : i = 0 := by omega
      subst this; decide
    · rw [parseIntBase10, formatInt, if_neg hi]
      obtain ⟨d, rest, hd, heq⟩ :=
        formatNatAux_head (i.toNat + 1) i.toNat (Nat.pos_of_ne_zero h0) (Nat.le_succ _)
      rw [formatNat_data _ h0, heq, parseIntChars,
        if_neg (digitChar_ne_minus d hd), if_neg (digitChar_ne_plus d hd), ← heq,
        ← formatNat_data _ h0, parseNatDigits_formatNat]
      simp only [Option.map_some']
      congr 1
      omega

/-- UnixNano value of the zero Go time (time.Time liter zero value, January 1,
year 1, 00:00:00 UTC), kept as an unbounded Int.  Go comparisons
(Before, After) compare instants, which this value represents exactly. -/
def goZeroTimeNanos : Int := -62135596800000000000

/-- Leaf content of a storage tree, merkletree.StorageBucket from the
external merkletree package, restricted to the fields dbAudit.go reads or
writes: the raw content bytes, the assigned identifier and the bucket
timestamp (UnixNano). -/
structure StorageBucket where
  Content : List Nat
  ID : String
  Timestamp : Int
  deriving DecidableEq

/-- A Merkle tree from the external merkletree package, observed through
the only part of its structure dbAudit.go manipulates: the ordered list of
leaf contents (each a StorageBucket).  Hashes and inner nodes belong to
the external primitive and never influence the embedded control flow. -/
structure MerkleTree where
  Leafs : List StorageBucket
  deriving DecidableEq

/-- Models merkletree.NewTree from the external hashing primitive at its
interface (spec section 6): builds the tree over the given ordered
contents and rejects an empty content list with a construction error. -/
def NewTree (contents : List StorageBucket) : Except GoError MerkleTree :=
  if contents.isEmpty then
    Except.error (GoError.msg "error: cannot construct tree with no content")
  else
    Except.ok ⟨contents⟩

/-- One record of the audit database: a row of the storage table (tags
topic, firstDate, lastDate, keyed by build time) or a row of the merkle
table (tags topic, level, id; fields value, children, lastTimestamp).
Field values that Go stores as marshalled strings (the tree, the children
list) are held directly; json round trips are the identity on them. -/
inductive Point where
  | storage (time : Int) (topic firstDate lastDate : String) (value : MerkleTree)
  | merkle (time : Int) (topic level id : String) (value : MerkleTree)
      (children : List String) (lastTimestamp : String)
  deriving DecidableEq

/-- Time key of a point (nanoseconds, the influx primary key). -/
def pointTime : Point → Int
  | Point.storage t _ _ _ _ => t
  | Point.merkle t _ _ _ _ _ _ => t

/-- Stored tree of a point (the value field, unmarshalled). -/
def pointTree : Point → MerkleTree
  | Point.storage _ _ _ _ v => v
  | Point.merkle _ _ _ _ v _ _ => v

/-- The id tag of a merkle-table point (empty for storage points, whose
identifier is their time key). -/
def pointIdTag : Point → String
  | Point.storage _ _ _ _ _ => ""
  | Point.merkle _ _ _ i _ _ _ => i

/-- The lastTimestamp field of a merkle-table point. -/
def pointLastTimestamp : Point → String
  | Point.storage _ _ _ _ _ => ""
  | Point.merkle _ _ _ _ _ _ lt => lt

/-- The audit datastore state, model of the DBAudit struct plus the
contents of the external stores it drives: redis is the key-value cache
(entries key, field, value, most recent first), store is the set of
points durably written to influx, influxBatchPoints and
influxPointsInBatch are the fields of the Go struct (the pending batch
and its point counter). -/
structure DBAudit where
  redis : List (String × String × String)
  store : List Point
  influxBatchPoints : List Point
  influxPointsInBatch : Nat
  deriving DecidableEq

/-- getKeyPoolIDs from dbAudit.go: redis hash key for a topic. -/
def getKeyPoolIDs (topic : String) : String :=
  "HashedPoolsMap_" ++ topic

/-- Models redis HSET of one field: the new binding shadows any older one
for the same key and field. -/
def hset (st : List (String × String × String)) (key field value : String) :
    List (String × String × String) :=
  (key, field, value) :: st

/-- Models redis HGET: the value of the most recent binding of the field
under the key, none when the field is absent (the redis.Nil reply). -/
def hget (st : List (String × String × String)) (key field : String) :
    Option String :=
  match st.find? (fun e => e.1 == key && e.2.1 == field) with
  | some e => some e.2.2
  | none => none

/-- createAuditBatchInflux: a freshly created batch holds no points. -/
def createAuditBatchInflux : List Point := []

/-- WriteAuditBatchInflux from dbAudit.go.  The res argument is the
outcome of the influx client write: none for success, some code for a
rejected write.  On success the stored points grow by the batch contents
and the counter resets (the Go code does not clear the batch itself); on
failure the batch is discarded and recreated empty while the counter is
left untouched, and the client error is returned. -/
def WriteAuditBatchInflux (res : Option Nat) (db : DBAudit) :
    DBAudit × Option GoError :=
  match res with
  | some e =>
    ({ db with influxBatchPoints := createAuditBatchInflux },
      some (GoError.influxErr e))
  | none =>
    ({ db with
        store := db.store ++ db.influxBatchPoints
        influxPointsInBatch := 0 }, none)

/-- addAuditPoint from dbAudit.go: append the point to the batch, bump
the counter, and flush when the counter reaches the threshold, ignoring
any flush error.  The threshold models influxMaxPointsInBatch, a constant
of the surrounding package whose definition is outside the given source;
res is the influx write outcome used if the threshold flush fires. -/
def addAuditPoint (threshold : Nat) (res : Option Nat) (db : DBAudit)
    (pt : Point) : DBAudit :=
  let db1 : DBAudit :=
    { db with
        influxBatchPoints := db.influxBatchPoints ++ [pt]
        influxPointsInBatch := db.influxPointsInBatch + 1 }
  if threshold ≤ db1.influxPointsInBatch then (WriteAuditBatchInflux res db1).1
  else db1

/-- The bucket identification loop of SetStorageTreeInflux: leaf i of the
sealed tree gets ID FormatInt(influxTimeID.UnixNano(), 10) + "." +
FormatInt(int64(i), 10); j is the index of the first bucket of l. -/
def assignIDs (influxTimeID : Int) : Nat → List StorageBucket → List StorageBucket
  | _, [] => []
  | j, b :: bs =>
    { b with ID := formatInt influxTimeID ++ "." ++ formatInt (Int.ofNat j) } ::
      assignIDs influxTimeID (j + 1) bs

/-- The firstDate accumulation of SetStorageTreeInflux: starts at the
second clock read (firstDate := time.Now()) and lowers to any earlier
bucket timestamp. -/
def storageFirstDate (now2 : Int) (leafs : List StorageBucket) : Int :=
  leafs.foldl (fun fd b => if b.Timestamp < fd then b.Timestamp else fd) now2

/-- The lastDate accumulation of SetStorageTreeInflux: starts at the zero
Go time (lastDate := time.Time liter zero) and raises to any later bucket
timestamp. -/
def storageLastDate (leafs : List StorageBucket) : Int :=
  leafs.foldl (fun ld b => if ld < b.Timestamp then b.Timestamp else ld)
    goZeroTimeNanos

/-- SetStorageTreeInflux from dbAudit.go.  influxTimeID is the single
time.Now() read used for every bucket ID and as the point time key; now2
is the second time.Now() read initialising firstDate.  res1 is the influx
outcome for a threshold flush inside addAuditPoint, res2 the outcome of
the explicit flush at the end.  On a NewTree construction error the state
is returned unchanged with that error. -/
def SetStorageTreeInflux (threshold : Nat) (res1 res2 : Option Nat)
    (influxTimeID now2 : Int) (db : DBAudit) (tree : MerkleTree)
    (topic : String) : DBAudit × Option GoError :=
  let bucketsWithID := assignIDs influxTimeID 0 tree.Leafs
  let firstDate := storageFirstDate now2 tree.Leafs
  let lastDate := storageLastDate tree.Leafs
  match NewTree bucketsWithID with
  | Except.error e => (db, some e)
  | Except.ok treeWithID =>
    let pt := Point.storage influxTimeID topic (formatInt firstDate)
      (formatInt lastDate) treeWithID
    let db1 := addAuditPoint threshold res1 db pt
    WriteAuditBatchInflux res2 db1

/-- SetPoolID from dbAudit.go: writes child -> int(ID) into the redis
hash of the topic for every child (one HSET of the whole pool map; the
decimal serialisation of the int64 value is what redis stores).  The
modelled cache performs the write; the edge where go-redis rejects an
empty field map is not modelled, and connection failures are outside the
model. -/
def SetPoolID (db : DBAudit) (topic : String) (children : List String)
    (ID : Int) : DBAudit × Option GoError :=
  let key := getKeyPoolIDs topic
  ({ db with redis :=
      children.foldl (fun st num => hset st key num (formatInt ID)) db.redis },
    none)

/-- GetPoolsParentID from dbAudit.go: HGET of the child id under the
topic key; a redis.Nil miss yields -2 with a dedicated error, a stored
value is parsed with strconv.ParseInt. -/
def GetPoolsParentID (db : DBAudit) (id topic : String) : Int × Option GoError :=
  match hget db.redis (getKeyPoolIDs topic) id with
  | none =>
    (-2, some (GoError.msg
      ("no redis entry for pool ID " ++ id ++ " with topic " ++ topic ++ " \n")))
  | some val =>
    match parseIntBase10 val with
    | some ID => (ID, none)
    | none => (-2, some (GoError.msg ("strconv.ParseInt: parsing " ++ val)))

/-- SetDailyTreeInflux from dbAudit.go: at level 2 the reverse pool index
is extended first (its error is discarded by the Go code), then the
merkle-table point is appended, tagged (topic, level, id = Itoa(ID)) with
fields value, children and lastTimestamp = Itoa(lastTimestamp.UnixNano()),
keyed at the clock read now, and the batch is flushed. -/
def SetDailyTreeInflux (threshold : Nat) (res1 res2 : Option Nat) (now : Int)
    (db : DBAudit) (tree : MerkleTree) (ID : Int) (topic level : String)
    (children : List String) (lastTimestamp : Int) : DBAudit × Option GoError :=
  let db1 := if level = "2" then (SetPoolID db topic children ID).1 else db
  let pt := Point.merkle now topic level (formatInt ID) tree children
    (formatInt lastTimestamp)
  let db2 := addAuditPoint threshold res1 db1 pt
  WriteAuditBatchInflux res2 db2

/-- Tag filter of the storage-table queries: the point is a storage row
whose topic tag equals the requested topic. -/
def isStorageTopic (topic : String) : Point → Bool
  | Point.storage _ tp _ _ _ => tp == topic
  | Point.merkle _ _ _ _ _ _ _ => false

/-- Tag filter of the merkle-table queries: the point is a merkle row
whose topic and level tags equal the requested ones. -/
def isMerkleTopicLevel (topic level : String) : Point → Bool
  | Point.storage _ _ _ _ _ => false
  | Point.merkle _ tp lv _ _ _ _ => tp == topic && lv == level

/-- ORDER BY ASC LIMIT 1 over a result set: the record with the smallest
time key (the first such record on a tie). -/
def pickEarliest (ps : List Point) : Option Point :=
  ps.foldl (fun acc p =>
    match acc with
    | none => some p
    | some q => if pointTime p < pointTime q then some p else some q) none

/-- ORDER BY DESC LIMIT 1 over a result set: the record with the largest
time key (the first such record on a tie). -/
def pickLatest (ps : List Point) : Option Point :=
  ps.foldl (fun acc p =>
    match acc with
    | none => some p
    | some q => if pointTime q < pointTime p then some p else some q) none

/-- The storage-table query of GetStorageTreeInflux and FindStorageTree:
the earliest storage row of the topic with time strictly greater than
timeLower. -/
def earliestAfterStorage (store : List Point) (topic : String)
    (timeLower : Int) : Option Point :=
  pickEarliest (store.filter
    (fun p => isStorageTopic topic p && timeLower < pointTime p))

/-- GetStorageTreeInflux from dbAudit.go: first tree of the topic with
time strictly after timeLower, together with its time key; the zero tree
and zero time with a nil error when nothing matches.  res is the influx
query outcome (none for an answered query). -/
def GetStorageTreeInflux (res : Option Nat) (store : List Point)
    (topic : String) (timeLower : Int) : MerkleTree × Int × Option GoError :=
  match res with
  | some e => (⟨[]⟩, goZeroTimeNanos, some (GoError.influxErr e))
  | none =>
    match earliestAfterStorage store topic timeLower with
    | some p => (pointTree p, pointTime p, none)
    | none => (⟨[]⟩, goZeroTimeNanos, none)

/-- GetStorageTreeByID from dbAudit.go: exact lookup by topic and time
key, where the ID string is interpolated into the query and read as the
numeric time; an ID that is not an integer literal makes influx reject
the query, and a well-formed query with no matching row yields the
dedicated errors.New empty response error. -/
def GetStorageTreeByID (res : Option Nat) (store : List Point)
    (topic ID : String) : MerkleTree × Option GoError :=
  match res with
  | some e => (⟨[]⟩, some (GoError.influxErr e))
  | none =>
    match parseIntBase10 ID with
    | none => (⟨[]⟩, some (GoError.msg "influx: invalid query"))
    | some t =>
      match store.find? (fun p => isStorageTopic topic p && pointTime p == t) with
      | some p => (pointTree p, none)
      | none => (⟨[]⟩, some (GoError.msg "empty response"))

/-- GetLastID from dbAudit.go: the time key of the latest storage row of
the topic as a decimal string; on an empty result the current clock read
now serves as the fresh identifier. -/
def GetLastID (res : Option Nat) (now : Int) (store : List Point)
    (topic : String) : String × Option GoError :=
  match res with
  | some e => ("0", some (GoError.influxErr e))
  | none =>
    match pickLatest (store.filter (isStorageTopic topic)) with
    | none => (formatInt now, none)
    | some p => (formatInt (pointTime p), none)

/-- GetDailyTreeInflux from dbAudit.go: earliest merkle row of the topic
and level with time strictly after timeLower, returning the stored tree,
the parsed id tag and the time key; zero values with a nil error when
nothing matches.  An unparseable id tag hits log.Fatal in Go, which kills
the process; it is embedded as a dedicated error return. -/
def GetDailyTreeInflux (res : Option Nat) (store : List Point)
    (topic level : String) (timeLower : Int) :
    MerkleTree × Int × Int × Option GoError :=
  match res with
  | some e => (⟨[]⟩, 0, goZeroTimeNanos, some (GoError.influxErr e))
  | none =>
    match pickEarliest (store.filter
        (fun p => isMerkleTopicLevel topic level p && timeLower < pointTime p)) with
    | none => (⟨[]⟩, 0, goZeroTimeNanos, none)
    | some p =>
      match parseIntBase10 (pointIdTag p) with
      | some id => (pointTree p, id, pointTime p, none)
      | none => (⟨[]⟩, 0, goZeroTimeNanos,
          some (GoError.msg "log.Fatal: invalid id tag"))

/-- GetDailyTreeByID from dbAudit.go: exact lookup by topic, level and id
tag (the decimal rendering of ID); when no row matches, the named return
values are the zero tree and a nil error. -/
def GetDailyTreeByID (res : Option Nat) (store : List Point)
    (topic level : String) (ID : Int) : MerkleTree × Option GoError :=
  match res with
  | some e => (⟨[]⟩, some (GoError.influxErr e))
  | none =>
    match store.find?
        (fun p => isMerkleTopicLevel topic level p && pointIdTag p == formatInt ID) with
    | none => (⟨[]⟩, none)
    | some p => (pointTree p, none)

/-- GetLastTimestamp from dbAudit.go: the lastTimestamp field of the
latest merkle row of the topic and level, parsed back to nanoseconds; on
an empty result the sentinel now minus ten days (time.Now().AddDate(0, 0,
-10), an exact 864000000000000 nanoseconds in the modelled UTC clock). -/
def GetLastTimestamp (res : Option Nat) (now : Int) (store : List Point)
    (topic level : String) : Int × Option GoError :=
  match res with
  | some e => (goZeroTimeNanos, some (GoError.influxErr e))
  | none =>
    match pickLatest (store.filter (isMerkleTopicLevel topic level)) with
    | none => (now - 864000000000000, none)
    | some p =>
      match parseIntBase10 (pointLastTimestamp p) with
      | some i => (i, none)
      | none => (goZeroTimeNanos, some (GoError.msg "strconv.ParseInt: parsing"))

/-- GetLastIDMerkle from dbAudit.go: the id tag of the latest merkle row
of the topic and level, parsed with strconv.ParseInt; on an empty result
the constant -1 with a nil error. -/
def GetLastIDMerkle (res : Option Nat) (store : List Point)
    (topic level : String) : Int × Option GoError :=
  match res with
  | some e => (0, some (GoError.influxErr e))
  | none =>
    match pickLatest (store.filter (isMerkleTopicLevel topic level)) with
    | none => (-1, none)
    | some p =>
      match parseIntBase10 (pointIdTag p) with
      | some v => (v, none)
      | none => (0, some (GoError.msg "strconv.ParseInt: parsing"))

/-- Civil date from a count of days since the Unix epoch (the standard
era-based conversion); returns year, month, day of the proleptic
Gregorian calendar, as Go computes when formatting a time. -/
def civilFromDays (z0 : Int) : Int × Nat × Nat :=
  let z := z0 + 719468
  let era := z.fdiv 146097
  let doe := (z - era * 146097).toNat
  let yoe := (doe - doe / 1460 + doe / 36524 - doe / 146096) / 365
  let y := (yoe : Int) + era * 400
  let doy := doe - (365 * yoe + yoe / 4 - yoe / 100)
  let mp := (5 * doy + 2) / 153
  let d := doy - (153 * mp + 2) / 5 + 1
  let m := if mp < 10 then mp + 3 else mp - 9
  (if m ≤ 2 then y + 1 else y, m, d)

/-- Two-digit zero-padded decimal, as the clock fields of the Go time
format. -/
def pad2 (n : Nat) : String :=
  if n < 10 then "0" ++ formatNat n else formatNat n

/-- Four-digit zero-padded decimal for the year field. -/
def pad4 (n : Nat) : String :=
  if n < 10 then "000" ++ formatNat n
  else if n < 100 then "00" ++ formatNat n
  else if n < 1000 then "0" ++ formatNat n
  else formatNat n

/-- Nine-digit zero-padded decimal for the fractional second. -/
def pad9 (n : Nat) : String :=
  let s := formatNat n
  ⟨List.replicate (9 - s.data.length) '0' ++ s.data⟩

/-- Fractional-second suffix of the Go time format 05.999999999: trailing
zeros trimmed, entirely absent for a whole second. -/
def fracPart (frac : Nat) : String :=
  if frac = 0 then ""
  else "." ++ ⟨((pad9 frac).data.reverse.dropWhile (fun c => c = '0')).reverse⟩

/-- Models the Go stdlib time.Time String method for a UTC instant given
as nanoseconds since the Unix epoch: layout
2006-01-02 15:04:05.999999999 -0700 MST, which for the times returned by
the embedded influx queries renders as
YYYY-MM-DD HH:MM:SS(.fraction) +0000 UTC. -/
def goTimeString (nanos : Int) : String :=
  let secs := nanos.fdiv 1000000000
  let frac := (nanos - secs * 1000000000).toNat
  let days := secs.fdiv 86400
  let sod := (secs - days * 86400).toNat
  let ymd := civilFromDays days
  pad4 ymd.1.toNat ++ "-" ++ pad2 ymd.2.1 ++ "-" ++ pad2 ymd.2.2 ++ " " ++
    pad2 (sod / 3600) ++ ":" ++ pad2 (sod % 3600 / 60) ++ ":" ++
    pad2 (sod % 60) ++ fracPart frac ++ " +0000 UTC"

/-- FindStorageTree from dbAudit.go: fetch the earliest storage tree of
the topic strictly after the data timestamp, run the external membership
check DataInStorageTree (passed in as the oracle memb, returning the
containment verdict and an optional error), and on containment return
timeTree.String(), the Go rendering of the found time; otherwise the
empty string with a nil error, with no retry at an advanced time bound.
res is the influx query outcome. -/
def FindStorageTree (memb : List Nat → MerkleTree → Bool × Option GoError)
    (res : Option Nat) (store : List Point) (data : List Nat) (timeData : Int)
    (topic : String) : String × Option GoError :=
  match GetStorageTreeInflux res store topic timeData with
  | (_, _, some e) => ("", some e)
  | (tree, timeTree, none) =>
    match memb data tree with
    | (_, some e) => ("", some e)
    | (true, none) => (goTimeString timeTree, none)
    | (false, none) => ("", none)

theorem hget_hset_self (st : List (String × String × String))
    (key field value : String) :
    hget (hset st key field value) key field = some value := by
  simp [hget, hset, List.find?]

theorem hget_hset_ne (st : List (String × String × String))
    (key field value f2 : String) (hne : f2 ≠ field) :
    hget (hset st key field value) key f2 = hget st key f2 := by
  have hff : (field == f2) = false :=
    beq_eq_false_iff_ne.mpr (fun h => hne h.symm)
  simp [hget, hset, List.find?, hff]

theorem hget_foldl_hset (key v c : String) :
    ∀ (children : List String) (st : List (String × String × String)),
      (c ∈ children ∨ hget st key c = some v) →
      hget (children.foldl (fun st num => hset st key num v) st) key c = some v := by
  intro children
  induction children with
  | nil =>
    intro st h
    cases h with
    | inl hmem => simp at hmem
    | inr hst => simpa using hst
  | cons d ds ih =>
    intro st h
    rw [List.foldl_cons]
    by_cases hcd : c = d
    · exact ih (hset st key d v) (Or.inr (by rw [hcd]; exact hget_hset_self st key d v))
    · cases h with
      | inl hmem =>
        rcases List.mem_cons.mp hmem with h1 | h2
        · exact absurd h1 hcd
        · exact ih _ (Or.inl h2)
      | inr hst =>
        exact ih _ (Or.inr (by rw [hget_hset_ne st key d v c hcd]; exact hst))

theorem redis_WriteAuditBatchInflux (res : Option Nat) (db : DBAudit) :
    (WriteAuditBatchInflux res db).1.redis = db.redis := by
  cases res <;> rfl

theorem redis_addAuditPoint (threshold : Nat) (res : Option Nat) (db : DBAudit)
    (pt : Point) :
    (addAuditPoint threshold res db pt).redis = db.redis := by
  unfold addAuditPoint
  dsimp only
  split
  · rw [redis_WriteAuditBatchInflux]
  · rfl

/-- Concrete empty datastore used by the finite checks below. -/
def db0 : DBAudit := ⟨[], [], [], 0⟩

/-- Concrete point used by the finite checks below. -/
def ptW : Point := Point.storage 1 "prices" "0" "0" ⟨[]⟩

/-- Concrete datastore with one pending batch point. -/
def dbC6 : DBAudit := ⟨[], [], [ptW], 1⟩

/-- Concrete datastore whose counter reports 5000 pending points. -/
def dbBatch : DBAudit := ⟨[], [], [], 5000⟩

/-- C6: if flushing the audit batch to the store fails, the batch is
discarded and replaced with a freshly created empty batch, the write
error is returned, and the next append (below the flush threshold)
operates on that fresh empty batch, so the writer is not stuck. -/
theorem writeAuditBatch_failure_recovers (db : DBAudit) (e : Nat)
    (threshold : Nat) (pt : Point)
    (hth : db.influxPointsInBatch + 1 < threshold) :
    (WriteAuditBatchInflux (some e) db).1.influxBatchPoints = [] ∧
    (WriteAuditBatchInflux (some e) db).2 = some (GoError.influxErr e) ∧
    (addAuditPoint threshold none (WriteAuditBatchInflux (some e) db).1
      pt).influxBatchPoints = [pt] := by
  have hneg : ¬ threshold ≤ db.influxPointsInBatch + 1 := by omega
  refine ⟨rfl, rfl, ?_⟩
  simp [WriteAuditBatchInflux, createAuditBatchInflux, addAuditPoint, hneg]

theorem writeAuditBatch_failure_recovers_witness :
    (WriteAuditBatchInflux (some 3) dbC6).1.influxBatchPoints = [] ∧
    (WriteAuditBatchInflux (some 3) dbC6).2 = some (GoError.influxErr 3) ∧
    (addAuditPoint 5000 none (WriteAuditBatchInflux (some 3) dbC6).1
      ptW).influxBatchPoints = [ptW] :=
  writeAuditBatch_failure_recovers dbC6 3 5000 ptW (by decide)

/-- C10: the pending-points counter is zeroed only on a successful flush.
After a failed flush the counter keeps its old value while the batch is
recreated empty, so the counter exceeds the number of points actually in
the batch, and the threshold test in addAuditPoint can fire on the very
next append, flushing a batch holding a single point although the
threshold is larger. -/
theorem failedFlush_counter_stale (db : DBAudit) (e : Nat) (threshold : Nat)
    (pt : Point) (hc : 0 < db.influxPointsInBatch)
    (hth : threshold ≤ db.influxPointsInBatch + 1) (h1 : 1 < threshold) :
    (WriteAuditBatchInflux (some e) db).1.influxPointsInBatch =
      db.influxPointsInBatch ∧
    (WriteAuditBatchInflux (some e) db).1.influxBatchPoints.length <
      (WriteAuditBatchInflux (some e) db).1.influxPointsInBatch ∧
    (addAuditPoint threshold none (WriteAuditBatchInflux (some e) db).1
      pt).influxPointsInBatch = 0 ∧
    (addAuditPoint threshold none (WriteAuditBatchInflux (some e) db).1
      pt).store = db.store ++ [pt] ∧
    (1 : Nat) < threshold := by
  refine ⟨rfl, ?_, ?_, ?_, h1⟩
  · simpa [WriteAuditBatchInflux, createAuditBatchInflux] using hc
  · simp [WriteAuditBatchInflux, createAuditBatchInflux, addAuditPoint, hth]
  · simp [WriteAuditBatchInflux, createAuditBatchInflux, addAuditPoint, hth]

theorem failedFlush_counter_stale_witness :
    (WriteAuditBatchInflux (some 7) dbBatch).1.influxPointsInBatch =
      dbBatch.influxPointsInBatch ∧
    (WriteAuditBatchInflux (some 7) dbBatch).1.influxBatchPoints.length <
      (WriteAuditBatchInflux (some 7) dbBatch).1.influxPointsInBatch ∧
    (addAuditPoint 5000 none (WriteAuditBatchInflux (some 7) dbBatch).1
      ptW).influxPointsInBatch = 0 ∧
    (addAuditPoint 5000 none (WriteAuditBatchInflux (some 7) dbBatch).1
      ptW).store = dbBatch.store ++ [ptW] ∧
    (1 : Nat) < 5000 :=
  failedFlush_counter_stale dbBatch 7 5000 ptW (by decide) (by decide) (by decide)

/-- C2: after SetDailyTreeInflux returns successfully at level 2, every
child identifier of the given children list has a reverse pool index
entry under the topic key holding the parent ID (stored in its decimal
serialisation).  The embedded cache write always succeeds; redis
connection failures are outside the model (the Go code discards the
SetPoolID error anyway). -/
theorem setDailyTreeInflux_level2_pool_entries (threshold : Nat)
    (res1 res2 : Option Nat) (now : Int) (db : DBAudit) (tree : MerkleTree)
    (ID : Int) (topic : String) (children : List String) (lastTimestamp : Int)
    (c : String) (hc : c ∈ children)
    (_hok : (SetDailyTreeInflux threshold res1 res2 now db tree ID topic "2"
      children lastTimestamp).2 = none) :
    hget (SetDailyTreeInflux threshold res1 res2 now db tree ID topic "2"
        children lastTimestamp).1.redis (getKeyPoolIDs topic) c =
      some (formatInt ID) := by
  have hredis : (SetDailyTreeInflux threshold res1 res2 now db tree ID topic "2"
      children lastTimestamp).1.redis =
      children.foldl (fun st num => hset st (getKeyPoolIDs topic) num
        (formatInt ID)) db.redis := by
    unfold SetDailyTreeInflux
    dsimp only
    rw [if_pos rfl, redis_WriteAuditBatchInflux, redis_addAuditPoint]
    simp [SetPoolID]
  rw [hredis]
  exact hget_foldl_hset (getKeyPoolIDs topic) (formatInt ID) c children db.redis
    (Or.inl hc)

/-- Concrete tree with two leaves used by the finite checks below. -/
def treeC1 : MerkleTree := ⟨[⟨[1], "", 5⟩, ⟨[2], "", 7⟩]⟩

theorem setDailyTreeInflux_level2_pool_entries_witness :
    hget (SetDailyTreeInflux 10 none none 999 db0 treeC1 500 "prices" "2"
        ["100.0", "100.1", "100.2"] 0).1.redis (getKeyPoolIDs "prices")
      "100.1" = some (formatInt 500) :=
  setDailyTreeInflux_level2_pool_entries 10 none none 999 db0 treeC1 500
    "prices" ["100.0", "100.1", "100.2"] 0 "100.1" (by simp) (by decide)

/-- C3: round trip of the reverse pool index: after SetPoolID maps every
child of the list to the parent ID, GetPoolsParentID on any of those
children returns that ID with a nil error. -/
theorem setPoolID_getPoolsParentID_roundtrip (db : DBAudit) (topic : String)
    (children : List String) (ID : Int) (c : String) (hc : c ∈ children) :
    GetPoolsParentID (SetPoolID db topic children ID).1 c topic = (ID, none) := by
  have h := hget_foldl_hset (getKeyPoolIDs topic) (formatInt ID) c children
    db.redis (Or.inl hc)
  unfold GetPoolsParentID
  simp only [SetPoolID]
  rw [h]
  simp [parseIntBase10_formatInt]

theorem setPoolID_getPoolsParentID_roundtrip_witness :
    GetPoolsParentID (SetPoolID db0 "prices" ["100.0", "100.1", "100.2"]
      500).1 "100.1" "prices" = (500, none) :=
  setPoolID_getPoolsParentID_roundtrip db0 "prices"
    ["100.0", "100.1", "100.2"] 500 "100.1" (by simp)

/-- C5 amended: on an empty store the bootstrap queries return sentinels
instead of errors: GetLastID answers with the current clock read as a
decimal UnixNano string, GetLastTimestamp with now minus the fixed ten
day lookback window, and GetLastIDMerkle with the constant -1 (a
sentinel, not a UnixNano-based value) and a nil error. -/
theorem bootstrap_sentinels_empty_store (now : Int) (topic level : String) :
    GetLastID none now [] topic = (formatInt now, none) ∧
    GetLastTimestamp none now [] topic level = (now - 864000000000000, none) ∧
    GetLastIDMerkle none [] topic level = (-1, none) :=
  ⟨rfl, rfl, rfl⟩

/-- C5 counterexample: the last merkle-table ID does not bootstrap to a
UnixNano-based value.  With the clock at 1700000000000000000 the storage
bootstrap yields that UnixNano value, while GetLastIDMerkle on the same
empty store yields the constant -1, which is not a UnixNano reading of
any clock used here. -/
theorem getLastIDMerkle_constant_counterexample :
    GetLastIDMerkle none [] "prices" "2" = (-1, none) ∧
    (GetLastID none 1700000000000000000 [] "prices").1 =
      "1700000000000000000" ∧
    (-1 : Int) ≠ 1700000000000000000 := by
  refine ⟨rfl, by decide, by decide⟩

theorem filter_eq_nil_of_false {α : Type} (p : α → Bool) (l : List α)
    (h : ∀ a ∈ l, p a = false) : l.filter p = [] := by
  induction l with
  | nil => rfl
  | cons a l ih =>
    rw [List.filter_cons, h a (List.mem_cons_self a l)]
    exact ih (fun b hb => h b (List.mem_cons_of_mem a hb))

/-- C8: an earliest-after query whose lower time bound is at or after the
time of every matching record, in particular equal to the latest one,
returns the zero-value empty result with a nil error, for both the
storage table and the merkle table; only records with time strictly
greater than the bound match. -/
theorem earliestAfter_at_bound_empty (store : List Point)
    (topic level : String) (timeLower : Int)
    (hs : ∀ p ∈ store, isStorageTopic topic p = true → pointTime p ≤ timeLower)
    (hm : ∀ p ∈ store, isMerkleTopicLevel topic level p = true →
      pointTime p ≤ timeLower) :
    GetStorageTreeInflux none store topic timeLower =
      (⟨[]⟩, goZeroTimeNanos, none) ∧
    GetDailyTreeInflux none store topic level timeLower =
      (⟨[]⟩, 0, goZeroTimeNanos, none) := by
  constructor
  · unfold GetStorageTreeInflux earliestAfterStorage
    rw [filter_eq_nil_of_false]
    · rfl
    · intro p hp
      cases hst : isStorageTopic topic p with
      | false => simp [hst]
      | true =>
        have hle := hs p hp hst
        simp only [hst, Bool.true_and, decide_eq_false_iff_not]
        omega
  · unfold GetDailyTreeInflux
    rw [filter_eq_nil_of_false]
    · rfl
    · intro p hp
      cases hst : isMerkleTopicLevel topic level p with
      | false => simp [hst]
      | true =>
        have hle := hm p hp hst
        simp only [hst, Bool.true_and, decide_eq_false_iff_not]
        omega

/-- Concrete two-row store whose latest records (both tables) sit at
time 5. -/
def storeC8 : List Point :=
  [Point.storage 5 "prices" "0" "0" ⟨[]⟩,
   Point.merkle 5 "prices" "2" "7" ⟨[]⟩ [] "0"]

theorem earliestAfter_at_bound_empty_witness :
    GetStorageTreeInflux none storeC8 "prices" 5 =
      (⟨[]⟩, goZeroTimeNanos, none) ∧
    GetDailyTreeInflux none storeC8 "prices" "2" 5 =
      (⟨[]⟩, 0, goZeroTimeNanos, none) :=
  earliestAfter_at_bound_empty storeC8 "prices" "2" 5 (by decide) (by decide)

/-- C9 amended: an exact-key lookup with no matching record yields, for
GetStorageTreeByID, the dedicated empty response error, distinguishable
from a successful result (nil error) and from a persistence failure (a
client error); for GetDailyTreeByID it yields the zero tree with a nil
error, distinguishable from a persistence failure but not from a
successful lookup of a stored zero tree. -/
theorem byID_no_match_outcomes (store : List Point) (topic ID : String)
    (t : Int) (dtopic dlevel : String) (DID : Int) (e : Nat)
    (hID : parseIntBase10 ID = some t)
    (hs : ∀ p ∈ store, (isStorageTopic topic p && pointTime p == t) = false)
    (hd : ∀ p ∈ store,
      (isMerkleTopicLevel dtopic dlevel p && pointIdTag p == formatInt DID) = false) :
    GetStorageTreeByID none store topic ID =
      (⟨[]⟩, some (GoError.msg "empty response")) ∧
    GoError.msg "empty response" ≠ GoError.influxErr e ∧
    GetStorageTreeByID (some e) store topic ID =
      (⟨[]⟩, some (GoError.influxErr e)) ∧
    GetDailyTreeByID none store dtopic dlevel DID = (⟨[]⟩, none) ∧
    GetDailyTreeByID (some e) store dtopic dlevel DID =
      (⟨[]⟩, some (GoError.influxErr e)) ∧
    (some (GoError.influxErr e) : Option GoError) ≠ none := by
  have hfs : store.find? (fun p => isStorageTopic topic p && pointTime p == t)
      = none :=
    List.find?_eq_none.mpr (fun x hx => by simp [hs x hx])
  have hfd : store.find? (fun p =>
      isMerkleTopicLevel dtopic dlevel p && pointIdTag p == formatInt DID) = none :=
    List.find?_eq_none.mpr (fun x hx => by simp [hd x hx])
  refine ⟨?_, by simp, rfl, ?_, rfl, by simp⟩
  · simp only [GetStorageTreeByID, hID, hfs]
  · simp only [GetDailyTreeByID, hfd]

theorem byID_no_match_outcomes_witness :
    GetStorageTreeByID none storeC8 "prices" "99" =
      (⟨[]⟩, some (GoError.msg "empty response")) ∧
    GoError.msg "empty response" ≠ GoError.influxErr 4 ∧
    GetStorageTreeByID (some 4) storeC8 "prices" "99" =
      (⟨[]⟩, some (GoError.influxErr 4)) ∧
    GetDailyTreeByID none storeC8 "prices" "2" 8 = (⟨[]⟩, none) ∧
    GetDailyTreeByID (some 4) storeC8 "prices" "2" 8 =
      (⟨[]⟩, some (GoError.influxErr 4)) ∧
    (some (GoError.influxErr 4) : Option GoError) ≠ none :=
  byID_no_match_outcomes storeC8 "prices" "99" 99 "prices" "2" 8 4
    (by decide) (by decide) (by decide)

/-- C9 counterexample: the no-match outcome of GetDailyTreeByID equals
the outcome of a successful lookup of a stored zero-value tree, so it is
not distinguishable from a successful result. -/
theorem getDailyTreeByID_indistinguishable_counterexample :
    GetDailyTreeByID none [Point.merkle 1 "prices" "2" "5" ⟨[]⟩ [] "0"]
        "prices" "2" 5 =
      GetDailyTreeByID none [] "prices" "2" 5 ∧
    GetDailyTreeByID none [Point.merkle 1 "prices" "2" "5" ⟨[]⟩ [] "0"]
        "prices" "2" 5 = (⟨[]⟩, none) := by
  refine ⟨by decide, by decide⟩

theorem assignIDs_length (tid : Int) :
    ∀ (j : Nat) (l : List StorageBucket),
      (assignIDs tid j l).length = l.length := by
  intro j l
  induction l generalizing j with
  | nil => rfl
  | cons b bs ih => simp [assignIDs, ih]

theorem assignIDs_get (tid : Int) :
    ∀ (l : List StorageBucket) (j i : Nat)
      (h : i < (assignIDs tid j l).length),
      ((assignIDs tid j l).get ⟨i, h⟩).ID =
        formatInt tid ++ "." ++ formatInt (Int.ofNat (j + i)) := by
  intro l
  induction l with
  | nil => intro j i h; simp [assignIDs] at h
  | cons b bs ih =>
    intro j i h
    cases i with
    | zero => simp [assignIDs]
    | succ m =>
      have h2 : m < (assignIDs tid (j + 1) bs).length := by
        simpa [assignIDs] using h
      have hidx : j + (m + 1) = (j + 1) + m := by omega
      rw [show ((assignIDs tid j (b :: bs)).get ⟨m + 1, h⟩) =
          ((assignIDs tid (j + 1) bs).get ⟨m, h2⟩) from rfl]
      rw [ih (j + 1) m h2, hidx]

theorem storageFirstDate_le (leafs : List StorageBucket) :
    ∀ a : Int, storageFirstDate a leafs ≤ a ∧
      ∀ b ∈ leafs, storageFirstDate a leafs ≤ b.Timestamp := by
  induction leafs with
  | nil =>
    intro a
    exact ⟨le_refl a, fun b hb => absurd hb (List.not_mem_nil b)⟩
  | cons x xs ih =>
    intro a
    obtain ⟨h1, h2⟩ := ih (if x.Timestamp < a then x.Timestamp else a)
    have hfa : (if x.Timestamp < a then x.Timestamp else a) ≤ a := by
      split <;> omega
    have hfx : (if x.Timestamp < a then x.Timestamp else a) ≤ x.Timestamp := by
      split <;> omega
    refine ⟨le_trans ?_ hfa, ?_⟩
    · simpa [storageFirstDate] using h1
    · intro b hb
      rcases List.mem_cons.mp hb with hbx | hbs
      · subst hbx
        exact le_trans (by simpa [storageFirstDate] using h1) hfx
      · simpa [storageFirstDate] using h2 b hbs

theorem storageFirstDate_mem (leafs : List StorageBucket) :
    ∀ a : Int, storageFirstDate a leafs = a ∨
      ∃ b ∈ leafs, storageFirstDate a leafs = b.Timestamp := by
  induction leafs with
  | nil => intro a; exact Or.inl rfl
  | cons x xs ih =>
    intro a
    have hfold : storageFirstDate a (x :: xs) =
        storageFirstDate (if x.Timestamp < a then x.Timestamp else a) xs := rfl
    rcases ih (if x.Timestamp < a then x.Timestamp else a) with heq | ⟨b, hb, hbeq⟩
    · rw [hfold, heq]
      split
      · exact Or.inr ⟨x, List.mem_cons_self x xs, rfl⟩
      · exact Or.inl rfl
    · exact Or.inr ⟨b, List.mem_cons_of_mem x hb, by rw [hfold, hbeq]⟩

theorem storageLastDate_ge (leafs : List StorageBucket) :
    ∀ a : Int, a ≤ leafs.foldl
        (fun ld b => if ld < b.Timestamp then b.Timestamp else ld) a ∧
      ∀ b ∈ leafs, b.Timestamp ≤ leafs.foldl
        (fun ld b => if ld < b.Timestamp then b.Timestamp else ld) a := by
  induction leafs with
  | nil =>
    intro a
    exact ⟨le_refl a, fun b hb => absurd hb (List.not_mem_nil b)⟩
  | cons x xs ih =>
    intro a
    obtain ⟨h1, h2⟩ := ih (if a < x.Timestamp then x.Timestamp else a)
    have hfa : a ≤ (if a < x.Timestamp then x.Timestamp else a) := by
      split <;> omega
    have hfx : x.Timestamp ≤ (if a < x.Timestamp then x.Timestamp else a) := by
      split <;> omega
    refine ⟨le_trans hfa ?_, ?_⟩
    · simpa using h1
    · intro b hb
      rcases List.mem_cons.mp hb with hbx | hbs
      · subst hbx
        exact le_trans hfx (by simpa using h1)
      · simpa using h2 b hbs

theorem storageLastDate_mem (leafs : List StorageBucket) :
    ∀ a : Int, leafs.foldl
        (fun ld b => if ld < b.Timestamp then b.Timestamp else ld) a = a ∨
      ∃ b ∈ leafs, leafs.foldl
        (fun ld b => if ld < b.Timestamp then b.Timestamp else ld) a
          = b.Timestamp := by
  induction leafs with
  | nil => intro a; exact Or.inl rfl
  | cons x xs ih =>
    intro a
    rcases ih (if a < x.Timestamp then x.Timestamp else a) with heq | ⟨b, hb, hbeq⟩
    · rw [List.foldl_cons, heq]
      split
      · exact Or.inr ⟨x, List.mem_cons_self x xs, rfl⟩
      · exact Or.inl rfl
    · exact Or.inr ⟨b, List.mem_cons_of_mem x hb, by rw [List.foldl_cons, hbeq]⟩

theorem setStorageTreeInflux_store (threshold : Nat) (res1 : Option Nat)
    (tid now2 : Int) (db : DBAudit) (tree : MerkleTree) (topic : String)
    (hne : tree.Leafs ≠ []) (hth : db.influxPointsInBatch + 1 < threshold) :
    (SetStorageTreeInflux threshold res1 none tid now2 db tree topic).1.store =
      db.store ++ db.influxBatchPoints ++
        [Point.storage tid topic (formatInt (storageFirstDate now2 tree.Leafs))
          (formatInt (storageLastDate tree.Leafs))
          ⟨assignIDs tid 0 tree.Leafs⟩] ∧
    (SetStorageTreeInflux threshold res1 none tid now2 db tree topic).2 = none := by
  have hne2 : assignIDs tid 0 tree.Leafs ≠ [] := by
    intro hnil
    have h0 : tree.Leafs.length = 0 := by
      rw [← assignIDs_length tid 0 tree.Leafs, hnil]
      rfl
    exact hne (List.length_eq_zero.mp h0)
  have hempty : (assignIDs tid 0 tree.Leafs).isEmpty = false := by
    cases h : assignIDs tid 0 tree.Leafs with
    | nil => exact absurd h hne2
    | cons a l => rfl
  have hnew : NewTree (assignIDs tid 0 tree.Leafs) =
      Except.ok ⟨assignIDs tid 0 tree.Leafs⟩ := by
    unfold NewTree
    rw [if_neg (by simp [hempty])]
  have hneg : ¬ threshold ≤ db.influxPointsInBatch + 1 := by omega
  unfold SetStorageTreeInflux
  dsimp only
  rw [hnew]
  simp [addAuditPoint, WriteAuditBatchInflux, hneg]

/-- C1: every call to SetStorageTreeInflux captures the single build time
influxTimeID and writes a storage point keyed at it whose tree has the
same number of leaves as the input, leaf i carrying the identifier
FormatInt(influxTimeID) + "." + FormatInt(i); the indices are contiguous
from 0. -/
theorem setStorageTreeInflux_leaf_ids (threshold : Nat) (res1 : Option Nat)
    (tid now2 : Int) (db : DBAudit) (tree : MerkleTree) (topic : String)
    (hne : tree.Leafs ≠ []) (hth : db.influxPointsInBatch + 1 < threshold) :
    (SetStorageTreeInflux threshold res1 none tid now2 db tree topic).1.store =
      db.store ++ db.influxBatchPoints ++
        [Point.storage tid topic (formatInt (storageFirstDate now2 tree.Leafs))
          (formatInt (storageLastDate tree.Leafs))
          ⟨assignIDs tid 0 tree.Leafs⟩] ∧
    (assignIDs tid 0 tree.Leafs).length = tree.Leafs.length ∧
    ∀ i (h : i < (assignIDs tid 0 tree.Leafs).length),
      ((assignIDs tid 0 tree.Leafs).get ⟨i, h⟩).ID =
        formatInt tid ++ "." ++ formatInt (Int.ofNat i) := by
  refine ⟨(setStorageTreeInflux_store threshold res1 tid now2 db tree topic
    hne hth).1, assignIDs_length tid 0 tree.Leafs, ?_⟩
  intro i h
  have := assignIDs_get tid tree.Leafs 0 i h
  simpa using this

theorem setStorageTreeInflux_leaf_ids_witness :
    (SetStorageTreeInflux 10 none none 100 50 db0 treeC1 "prices").1.store =
      db0.store ++ db0.influxBatchPoints ++
        [Point.storage 100 "prices"
          (formatInt (storageFirstDate 50 treeC1.Leafs))
          (formatInt (storageLastDate treeC1.Leafs))
          ⟨assignIDs 100 0 treeC1.Leafs⟩] ∧
    (assignIDs 100 0 treeC1.Leafs).length = treeC1.Leafs.length ∧
    ∀ i (h : i < (assignIDs 100 0 treeC1.Leafs).length),
      ((assignIDs 100 0 treeC1.Leafs).get ⟨i, h⟩).ID =
        formatInt 100 ++ "." ++ formatInt (Int.ofNat i) :=
  setStorageTreeInflux_leaf_ids 10 none 100 50 db0 treeC1 "prices"
    (by decide) (by decide)

/-- C7 amended: when every leaf timestamp is at most the clock value read
at sealing and at least the zero Go time, the firstDate and lastDate tags
written by SetStorageTreeInflux are the minimum and maximum of the leaf
timestamps.  In general the code computes firstDate as the minimum of the
clock read and the leaf timestamps, because firstDate is initialised with
time.Now(), and lastDate as the maximum of the zero time and the leaf
timestamps. -/
theorem setStorageTreeInflux_date_tags (threshold : Nat) (res1 : Option Nat)
    (tid now2 : Int) (db : DBAudit) (tree : MerkleTree) (topic : String)
    (hne : tree.Leafs ≠ []) (hth : db.influxPointsInBatch + 1 < threshold)
    (hbound : ∀ b ∈ tree.Leafs, b.Timestamp ≤ now2)
    (hzero : ∀ b ∈ tree.Leafs, goZeroTimeNanos ≤ b.Timestamp) :
    (SetStorageTreeInflux threshold res1 none tid now2 db tree topic).1.store =
      db.store ++ db.influxBatchPoints ++
        [Point.storage tid topic (formatInt (storageFirstDate now2 tree.Leafs))
          (formatInt (storageLastDate tree.Leafs))
          ⟨assignIDs tid 0 tree.Leafs⟩] ∧
    ((∃ b ∈ tree.Leafs, storageFirstDate now2 tree.Leafs = b.Timestamp) ∧
      ∀ b ∈ tree.Leafs, storageFirstDate now2 tree.Leafs ≤ b.Timestamp) ∧
    ((∃ b ∈ tree.Leafs, storageLastDate tree.Leafs = b.Timestamp) ∧
      ∀ b ∈ tree.Leafs, b.Timestamp ≤ storageLastDate tree.Leafs) := by
  obtain ⟨hlea, hleb⟩ := storageFirstDate_le tree.Leafs now2
  obtain ⟨hgea, hgeb⟩ := storageLastDate_ge tree.Leafs goZeroTimeNanos
  obtain ⟨b0, hb0⟩ := List.exists_mem_of_ne_nil tree.Leafs hne
  refine ⟨(setStorageTreeInflux_store threshold res1 tid now2 db tree topic
    hne hth).1, ⟨?_, hleb⟩, ⟨?_, hgeb⟩⟩
  · rcases storageFirstDate_mem tree.Leafs now2 with heq | hex
    · exact ⟨b0, hb0, le_antisymm (hleb b0 hb0)
        (by rw [heq]; exact hbound b0 hb0)⟩
    · exact hex
  · rcases storageLastDate_mem tree.Leafs goZeroTimeNanos with heq | hex
    · refine ⟨b0, hb0, le_antisymm ?_ (hgeb b0 hb0)⟩
      rw [storageLastDate, heq]
      exact hzero b0 hb0
    · exact hex

theorem setStorageTreeInflux_date_tags_witness :
    (SetStorageTreeInflux 10 none none 100 50 db0 treeC1 "prices").1.store =
      db0.store ++ db0.influxBatchPoints ++
        [Point.storage 100 "prices"
          (formatInt (storageFirstDate 50 treeC1.Leafs))
          (formatInt (storageLastDate treeC1.Leafs))
          ⟨assignIDs 100 0 treeC1.Leafs⟩] ∧
    ((∃ b ∈ treeC1.Leafs, storageFirstDate 50 treeC1.Leafs = b.Timestamp) ∧
      ∀ b ∈ treeC1.Leafs, storageFirstDate 50 treeC1.Leafs ≤ b.Timestamp) ∧
    ((∃ b ∈ treeC1.Leafs, storageLastDate treeC1.Leafs = b.Timestamp) ∧
      ∀ b ∈ treeC1.Leafs, b.Timestamp ≤ storageLastDate treeC1.Leafs) :=
  setStorageTreeInflux_date_tags 10 none 100 50 db0 treeC1 "prices"
    (by decide) (by decide) (by decide) (by decide)

/-- Concrete tree with one leaf whose timestamp 10 lies after the clock
read 0 used in the counterexample below. -/
def treeFuture : MerkleTree := ⟨[⟨[], "", 10⟩]⟩

/-- C7 counterexample: with the clock at 0 and a single leaf timestamped
10, the written firstDate tag is "0" (the clock read) although the
minimum of the leaf timestamps is 10, so the firstDate tag is not the
minimum of the leaf timestamps. -/
theorem setStorageTreeInflux_firstDate_counterexample :
    (SetStorageTreeInflux 10 none none 100 0 db0 treeFuture "t").1.store =
      [Point.storage 100 "t" "0" "10" ⟨[⟨[], "100.0", 10⟩]⟩] ∧
    treeFuture.Leafs.map (fun b => b.Timestamp) = [10] ∧
    ("0" : String) ≠ "10" := by
  refine ⟨by decide, by decide, by decide⟩

/-- C4 amended: FindStorageTree fetches the storage tree with the
earliest build time strictly after the approximate timestamp, tests
membership of the payload with the external check, and on containment
returns the Go String rendering of that build time (not the decimal
UnixNano key under which GetStorageTreeByID retrieves the tree); when no
tree is found or the membership check reports the payload absent it
returns the empty identifier with a nil error, performing a single probe
with no retry at an advanced time bound. -/
theorem findStorageTree_single_probe
    (memb : List Nat → MerkleTree → Bool × Option GoError)
    (store : List Point) (data : List Nat) (timeData : Int) (topic : String) :
    (∀ p, earliestAfterStorage store topic timeData = some p →
      (memb data (pointTree p) = (true, none) →
        FindStorageTree memb none store data timeData topic =
          (goTimeString (pointTime p), none)) ∧
      (memb data (pointTree p) = (false, none) →
        FindStorageTree memb none store data timeData topic = ("", none))) ∧
    (earliestAfterStorage store topic timeData = none →
      memb data ⟨[]⟩ = (false, none) →
      FindStorageTree memb none store data timeData topic = ("", none)) := by
  constructor
  · intro p hp
    constructor
    · intro hmem
      simp only [FindStorageTree, GetStorageTreeInflux, hp, hmem]
    · intro hmem
      simp only [FindStorageTree, GetStorageTreeInflux, hp, hmem]
  · intro hp hmem
    simp only [FindStorageTree, GetStorageTreeInflux, hp, hmem]

/-- Concrete one-leaf tree stored in the search scenario below. -/
def treeC4 : MerkleTree := ⟨[⟨[1], "x", 1⟩]⟩

/-- Concrete store holding treeC4 under build time 1000000000. -/
def storeC4 : List Point := [Point.storage 1000000000 "prices" "1" "2" treeC4]

theorem findStorageTree_single_probe_witness :
    FindStorageTree (fun _ _ => (true, none)) none storeC4 [1] 0 "prices" =
      ("1970-01-01 00:00:01 +0000 UTC", none) := by
  have h := ((findStorageTree_single_probe (fun _ _ => (true, none)) storeC4
    [1] 0 "prices").1 (Point.storage 1000000000 "prices" "1" "2" treeC4)
    (by decide)).1 rfl
  rw [h]
  decide

/-- C4 counterexample: the identifier returned by FindStorageTree is the
Go time String rendering of the build time, not the build-time key: fed
back to GetStorageTreeByID it does not retrieve the tree (the query is
rejected as malformed), while the decimal UnixNano key of the same build
time does retrieve it. -/
theorem findStorageTree_id_not_key_counterexample :
    FindStorageTree (fun _ _ => (true, none)) none storeC4 [1] 0 "prices" =
      ("1970-01-01 00:00:01 +0000 UTC", none) ∧
    GetStorageTreeByID none storeC4 "prices"
        "1970-01-01 00:00:01 +0000 UTC" =
      (⟨[]⟩, some (GoError.msg "influx: invalid query")) ∧
    GetStorageTreeByID none storeC4 "prices" "1000000000" = (treeC4, none) ∧
    ("1970-01-01 00:00:01 +0000 UTC" : String) ≠ "1000000000" := by
  refine ⟨by decide, by decide, by decide, by decide⟩
